import Mathlib

/-!
# Shallow embedding of tinypkg's core data model and operations

This development embeds, directly from the C sources of the `tinypkg`
package manager, the parts of the program that the verified properties
talk about:

* the installed-packages database and its text persistence
  (`src/package.c`: `package_db_add`, `package_db_remove`,
  `package_db_find`, `package_db_save`, `package_db_load`,
  `package_set_state`, `package_remove`),
* the dependency resolver (`src/dependency.c`: `dependency_resolve`,
  `dependency_graph_build`, `dependency_detect_cycles`,
  `dependency_graph_topological_sort`, `dependency_find_dependents`),
* the integrity verifier (`src/security.c`: `security_detect_hash_type`,
  `security_verify_checksum`, `security_verify_package_integrity`),
* the build runner (`src/build.c`: `build_package`,
  `build_download_source`, the `active_builds` table and the build-dir
  cleanup on exit).

External effects (the filesystem, shell commands, digest tools) are
modelled by explicit oracle records that the embedded functions consume;
mutation of C linked lists becomes explicit state passing over Lean
lists, with the list head corresponding to the head of the C list.
C `int` result codes are `Int` with the constants of `tinypkg.h`.
-/

namespace TinyPkg

/-! ## Result codes and state ordinals (include/tinypkg.h) -/

def TINYPKG_SUCCESS : Int := 0
def TINYPKG_ERROR : Int := -1
def TINYPKG_ERROR_MEMORY : Int := -2
def TINYPKG_ERROR_FILE : Int := -3
def TINYPKG_ERROR_NETWORK : Int := -4
def TINYPKG_ERROR_BUILD : Int := -5
def TINYPKG_ERROR_DEPENDENCY : Int := -6

def PKG_STATE_UNKNOWN : Int := 0
def PKG_STATE_AVAILABLE : Int := 1
def PKG_STATE_DOWNLOADING : Int := 2
def PKG_STATE_BUILDING : Int := 3
def PKG_STATE_INSTALLING : Int := 4
def PKG_STATE_INSTALLED : Int := 5
def PKG_STATE_FAILED : Int := 6
def PKG_STATE_BROKEN : Int := 7

/-- `build_type_t` (include/tinypkg.h lines 78-83). -/
inductive BuildType where
  | autotools
  | cmake
  | make
  | custom
  deriving Repr, DecidableEq

/-! ## Package record (include/package.h, `package_t`)

Only the fields the verified operations read are carried. -/

structure Package where
  name : String := ""
  version : String := ""
  description : String := ""
  source_url : String := ""
  checksum : String := ""
  build_cmd : String := ""
  install_cmd : String := ""
  configure_args : String := ""
  dependencies : List String := []
  conflicts : List String := []
  size_estimate : Nat := 0
  install_time : Int := 0
  build_system : BuildType := BuildType.autotools
  deriving Repr, DecidableEq

/-! ## Installed-packages database (src/package.c)

`package_db_entry_t` rows form a singly linked list headed at
`package_db_head`; the Lean list's head is the C list's head. -/

structure DbEntry where
  name : String := ""
  version : String := ""
  description : String := ""
  install_time : Int := 0
  installed_size : Nat := 0
  state : Int := 0
  deriving Repr, DecidableEq

abbrev Db := List DbEntry

/-- `package_db_find`: walk the list, return the first row whose `name`
matches (src/package.c lines 539-555). -/
def package_db_find (db : Db) (package_name : String) : Option DbEntry :=
  db.find? (fun e => e.name == package_name)

/-- `package_db_remove`: unlink the first row whose `name` matches; a
missing row is not an error (src/package.c lines 513-537). The result
code is always `TINYPKG_SUCCESS` in the model (the save that follows a
successful unlink is modelled by `package_db_save_lines` below), so only
the updated list is returned. -/
def package_db_remove (package_name : String) : Db → Db
  | [] => []
  | e :: rest =>
    if e.name == package_name then rest
    else e :: package_db_remove package_name rest

/-- The row that `package_db_add` builds from a `package_t`
(src/package.c lines 493-503): name/version/description are copied,
`install_time` is taken from the package, `installed_size` is the
package's `size_estimate`, and `state` is forced to
`PKG_STATE_INSTALLED`. -/
def mkDbEntry (pkg : Package) : DbEntry :=
  { name := pkg.name
    version := pkg.version
    description := pkg.description
    install_time := pkg.install_time
    installed_size := pkg.size_estimate
    state := PKG_STATE_INSTALLED }

/-- `package_db_add`: remove any existing row with the same name, then
prepend the new row at the head (src/package.c lines 482-511). -/
def package_db_add (pkg : Package) (db : Db) : Db :=
  mkDbEntry pkg :: package_db_remove pkg.name db

/-- In-place state update of the first matching row, as done through the
pointer returned by `package_db_find` (src/package.c lines 756-761). -/
def db_set_state_first (package_name : String) (st : Int) : Db → Db
  | [] => []
  | e :: rest =>
    if e.name == package_name then { e with state := st } :: rest
    else e :: db_set_state_first package_name st rest

/-- `package_set_state` (src/package.c lines 756-766): if the row exists,
update its state field and save the database; otherwise just log and
return success.  The result triple is (result code, database, whether
`package_db_save` was invoked, i.e. whether the on-disk file was
rewritten). -/
def package_set_state (package_name : String) (st : Int) (db : Db) :
    Int × Db × Bool :=
  match package_db_find db package_name with
  | some _ => (TINYPKG_SUCCESS, db_set_state_first package_name st db, true)
  | none => (TINYPKG_SUCCESS, db, false)

/-! ## Catalog

`package_load_info` (src/package.c line 465) deserializes the catalog
entry for a name via the JSON loader; the catalog contents are input
data, modelled as a partial map from names to package records.  `NULL`
(not found / parse failure) is `none`. -/

abbrev Catalog := String → Option Package

/-! ## Dependency resolver (src/dependency.c) -/

/-- `dependency_node_t`: a graph node carries the package name and the
dependency-name array copied from the loaded package; a `NULL` (never
loaded) array is the empty list, exactly as `dep_count = 0`. -/
structure DepNode where
  package_name : String
  dependencies : List String
  deriving Repr, DecidableEq

/-- The node linked list headed at `graph->nodes`; list head = C head. -/
abbrev DepGraph := List DepNode

/-- `dependency_graph_find_node` (src/dependency.c lines 332-345): first
node with a matching name. -/
def dependency_graph_find_node (g : DepGraph) (package_name : String) :
    Option DepNode :=
  g.find? (fun n => n.package_name == package_name)

/-- `dependency_graph_add_package` (src/dependency.c lines 84-107): if
absent, prepend a fresh node (dependencies `NULL`) at the head. -/
def dependency_graph_add_package (g : DepGraph) (package_name : String) :
    DepGraph :=
  if (dependency_graph_find_node g package_name).isSome then g
  else ⟨package_name, []⟩ :: g

/-- The inner loop of `dependency_graph_build` (src/dependency.c lines
123-128): for each dependency of the node being processed, call
`dependency_graph_add_package` on the whole current graph.  `front` are
the nodes prepended so far during the build (graph head side); `others`
is the rest of the graph (processed nodes, the current node, and the
yet-unprocessed tail), which membership checks also see. -/
def addDepsToGraph (others : List DepNode) (deps : List String)
    (front : List DepNode) : List DepNode :=
  deps.foldl
    (fun f d =>
      if (dependency_graph_find_node (f ++ others) d).isSome then f
      else ⟨d, []⟩ :: f)
    front

/-- The traversal of `dependency_graph_build` (src/dependency.c lines
109-137).  The C loop captures `graph->nodes` once and follows `next`
pointers; nodes added during the loop are *prepended* to the list head
and therefore are never visited by this traversal.  `front` collects the
prepended nodes (most recent first), `done` the already-visited nodes of
the snapshot (most recent first), `rest` the unvisited tail.  The
resulting list is the final `graph->nodes` order. -/
def buildGo (catalog : Catalog) :
    List DepNode → List DepNode → List DepNode → List DepNode
  | front, done, [] => front ++ done.reverse
  | front, done, node :: rest =>
    if node.dependencies.isEmpty then
      match catalog node.package_name with
      | some pkg =>
        if pkg.dependencies.isEmpty then
          buildGo catalog front (node :: done) rest
        else
          let node' := { node with dependencies := pkg.dependencies }
          let front' := addDepsToGraph (done.reverse ++ node' :: rest)
            pkg.dependencies front
          buildGo catalog front' (node' :: done) rest
      | none => buildGo catalog front (node :: done) rest
    else buildGo catalog front (node :: done) rest

/-- `dependency_graph_build` (src/dependency.c lines 109-137). -/
def dependency_graph_build (catalog : Catalog) (g : DepGraph) : DepGraph :=
  buildGo catalog [] [] g

/-- `dfs_cycle_check` (src/dependency.c lines 261-280).  The per-node
`visited` and `in_stack` flags become the `visited` list (monotone) and
the `stack` list (the names on the current DFS path).  The `Nat` fuel
bounds the recursion depth; each descent marks one previously unvisited
node, so `g.length + 1` fuel is always sufficient, and all uses below
supply it.  Returns (cycle found, updated visited set). -/
def dfsCheck (g : DepGraph) :
    Nat → DepNode → List String → List String → Bool × List String
  | 0, _, visited, _ => (false, visited)
  | fuel + 1, node, visited, stack =>
    let visited1 := node.package_name :: visited
    let stack1 := node.package_name :: stack
    node.dependencies.foldl
      (fun acc d =>
        match acc with
        | (true, vv) => (true, vv)
        | (false, vv) =>
          match dependency_graph_find_node g d with
          | none => (false, vv)
          | some dep_node =>
            if stack1.contains dep_node.package_name then (true, vv)
            else if vv.contains dep_node.package_name then (false, vv)
            else dfsCheck g fuel dep_node vv stack1)
      (false, visited1)

/-- The "check each unvisited node" loop of `dependency_detect_cycles`
(src/dependency.c lines 293-303). -/
def detectCyclesGo (g : DepGraph) : List DepNode → List String → Int
  | [], _ => TINYPKG_SUCCESS
  | node :: rest, visited =>
    if visited.contains node.package_name then detectCyclesGo g rest visited
    else
      match dfsCheck g (g.length + 1) node visited [] with
      | (true, _) => TINYPKG_ERROR_DEPENDENCY
      | (false, visited') => detectCyclesGo g rest visited'

/-- `dependency_detect_cycles` (src/dependency.c lines 282-306). -/
def dependency_detect_cycles (g : DepGraph) : Int :=
  detectCyclesGo g g []

/-- Index of the first node whose name matches, i.e. the inner
`for (j ...)` searches of the topological sort (src/dependency.c lines
180-192 and 230-239), which `break` at the first hit. -/
def firstNodeIdx (nodes : List DepNode) (d : String) : Option Nat :=
  nodes.findIdx? (fun n => n.package_name == d)

/-- In-degree computation of `dependency_graph_topological_sort`
(src/dependency.c lines 173-197): for every node and every one of its
dependency names, increment the in-degree of the first node carrying
that name.  In-degrees are C `int`s. -/
def computeInDegrees (nodes : List DepNode) : List Int :=
  nodes.foldl
    (fun acc node =>
      node.dependencies.foldl
        (fun acc d =>
          match firstNodeIdx nodes d with
          | some j => acc.set j (acc.getD j 0 + 1)
          | none => acc)
        acc)
    (List.replicate nodes.length 0)

/-- The Kahn queue loop (src/dependency.c lines 211-241): pop an index,
emit its name, decrement the in-degree of each dependency's first index
and enqueue it when the in-degree reaches zero.  The queue is FIFO; the
fuel bounds the number of pops (at most one per node, so
`nodes.length + 1` always suffices and is what the caller passes). -/
def kahnGo (nodes : List DepNode) :
    Nat → List Nat → List Int → List String → List String
  | 0, _, _, res => res
  | _ + 1, [], _, res => res
  | fuel + 1, i :: qrest, inDeg, res =>
    match nodes.get? i with
    | none => res
    | some current =>
      let res' := res ++ [current.package_name]
      let step := current.dependencies.foldl
        (fun (acc : List Int × List Nat) d =>
          match firstNodeIdx nodes d with
          | some j =>
            let v := acc.1.getD j 0 - 1
            let deg' := acc.1.set j v
            if v == 0 then (deg', acc.2 ++ [j]) else (deg', acc.2)
          | none => acc)
        (inDeg, [])
      kahnGo nodes fuel (qrest ++ step.2) step.1 res'

/-- `dependency_graph_topological_sort` (src/dependency.c lines 139-258):
`Except.error` is the non-`TINYPKG_SUCCESS` result code; `Except.ok`
carries the emitted name sequence. -/
def dependency_graph_topological_sort (g : DepGraph) :
    Except Int (List String) :=
  if g.isEmpty then Except.ok []
  else
    let inDeg := computeInDegrees g
    let queue0 := (List.range g.length).filter (fun i => inDeg.getD i 0 == 0)
    let result := kahnGo g (g.length + 1) queue0 inDeg []
    if result.length = g.length then Except.ok result
    else Except.error TINYPKG_ERROR_DEPENDENCY

/-- `dependency_resolve` (src/dependency.c lines 12-63): add the target
to a fresh graph, build, detect cycles (returning
`TINYPKG_ERROR_DEPENDENCY` if any), then topologically sort. -/
def dependency_resolve (catalog : Catalog) (package_name : String) :
    Except Int (List String) :=
  let g0 := dependency_graph_add_package [] package_name
  let g1 := dependency_graph_build catalog g0
  if dependency_detect_cycles g1 ≠ TINYPKG_SUCCESS then
    Except.error TINYPKG_ERROR_DEPENDENCY
  else dependency_graph_topological_sort g1

/-- `dependency_find_dependents` (src/dependency.c lines 348-410): walk
the database, load each installed entry's package record, and collect
the names of those whose declared dependencies include `package_name`. -/
def dependency_find_dependents (catalog : Catalog) (db : Db)
    (package_name : String) : List String :=
  (db.filter
      (fun e =>
        match catalog e.name with
        | some pkg => pkg.dependencies.contains package_name
        | none => false)).map
    (fun e => e.name)

/-! ## Removal (src/package.c, `package_remove`) -/

/-- The configuration fields build/remove read (src/config.h). -/
structure Config where
  force_mode : Bool := false
  skip_dependencies : Bool := false
  keep_build_dir : Bool := false
  parallel_jobs : Int := 4
  installPfx : String := "/usr/local"
  debug_symbols : Bool := false
  deriving Repr

/-- `package_remove` (src/package.c lines 145-216): succeed when not
installed; unless `force_mode`, fail with `TINYPKG_ERROR_DEPENDENCY`
when `dependency_find_dependents` is non-empty; otherwise delete the
recorded files (an external effect not modelled here) and drop the
database row.  Returns (result code, database). -/
def package_remove (cfg : Config) (catalog : Catalog) (db : Db)
    (package_name : String) : Int × Db :=
  match package_db_find db package_name with
  | none => (TINYPKG_SUCCESS, db)
  | some _ =>
    if !cfg.force_mode ∧
        dependency_find_dependents catalog db package_name ≠ [] then
      (TINYPKG_ERROR_DEPENDENCY, db)
    else (TINYPKG_SUCCESS, package_db_remove package_name db)

/-! ## Database lemmas -/

theorem map_name_package_db_remove (n : String) (db : Db) :
    (package_db_remove n db).map DbEntry.name =
      (db.map DbEntry.name).erase n := by
  induction db with
  | nil => rfl
  | cons e rest ih =>
    by_cases h : e.name = n
    · simp [package_db_remove, List.erase_cons, h]
    · simp [package_db_remove, List.erase_cons, h, ih]

theorem package_db_find_eq_none_of_not_mem (db : Db) (n : String)
    (h : n ∉ db.map DbEntry.name) : package_db_find db n = none := by
  rw [package_db_find, List.find?_eq_none]
  intro e he
  simp only [beq_iff_eq]
  intro hname
  exact h (List.mem_map.mpr ⟨e, he, hname⟩)

theorem package_db_find_remove_self (db : Db) (n : String)
    (h : (db.map DbEntry.name).Nodup) :
    package_db_find (package_db_remove n db) n = none := by
  apply package_db_find_eq_none_of_not_mem
  rw [map_name_package_db_remove]
  intro hmem
  exact ((List.Nodup.mem_erase_iff h).mp hmem).1 rfl

/-- C7: `package_db_add` overwrites any row of the same name, keeping
names unique; a subsequent `package_db_find` on that name returns
exactly the added row (all six fields); and after `package_db_remove n`
a `package_db_find n` is absent. -/
theorem c7_db_add_remove_find (pkg : Package) (db : Db) (n : String)
    (h : (db.map DbEntry.name).Nodup) :
    ((package_db_add pkg db).map DbEntry.name).Nodup
    ∧ package_db_find (package_db_add pkg db) pkg.name = some (mkDbEntry pkg)
    ∧ package_db_find (package_db_remove n db) n = none := by
  refine ⟨?_, ?_, package_db_find_remove_self db n h⟩
  · simp only [package_db_add, List.map_cons, map_name_package_db_remove]
    refine List.nodup_cons.mpr ⟨?_, List.Nodup.erase _ h⟩
    intro hmem
    exact ((List.Nodup.mem_erase_iff h).mp hmem).1 rfl
  · simp [package_db_find, package_db_add, List.find?, mkDbEntry]

/-- Witness for `c7_db_add_remove_find` at a concrete two-row database. -/
theorem c7_db_add_remove_find_witness :
    (([⟨"zlib", "1.3", "compression", 100, 5, 5⟩,
        ⟨"curl", "8.0", "transfer tool", 200, 9, 5⟩] : Db).map
          DbEntry.name).Nodup
    ∧ (((package_db_add { name := "curl", version := "8.1" }
          [⟨"zlib", "1.3", "compression", 100, 5, 5⟩,
           ⟨"curl", "8.0", "transfer tool", 200, 9, 5⟩]).map
            DbEntry.name).Nodup
      ∧ package_db_find
          (package_db_add { name := "curl", version := "8.1" }
            [⟨"zlib", "1.3", "compression", 100, 5, 5⟩,
             ⟨"curl", "8.0", "transfer tool", 200, 9, 5⟩]) "curl" =
          some (mkDbEntry { name := "curl", version := "8.1" })
      ∧ package_db_find
          (package_db_remove "zlib"
            [⟨"zlib", "1.3", "compression", 100, 5, 5⟩,
             ⟨"curl", "8.0", "transfer tool", 200, 9, 5⟩]) "zlib" = none) :=
  ⟨by decide,
    c7_db_add_remove_find { name := "curl", version := "8.1" }
      [⟨"zlib", "1.3", "compression", 100, 5, 5⟩,
       ⟨"curl", "8.0", "transfer tool", 200, 9, 5⟩] "zlib" (by decide)⟩

/-- C9: `package_remove` of a name with no database row succeeds and
changes nothing; without `force_mode`, a non-empty
`dependency_find_dependents` makes it fail with
`TINYPKG_ERROR_DEPENDENCY` leaving the database (hence the row) intact;
with `force_mode` the dependents check is skipped and the row is
removed. -/
theorem c9_package_remove_spec (cfg : Config) (catalog : Catalog) (db : Db)
    (n : String) :
    (package_db_find db n = none →
      package_remove cfg catalog db n = (TINYPKG_SUCCESS, db))
    ∧ (cfg.force_mode = false → (package_db_find db n).isSome →
        dependency_find_dependents catalog db n ≠ [] →
        package_remove cfg catalog db n = (TINYPKG_ERROR_DEPENDENCY, db))
    ∧ (cfg.force_mode = true → (package_db_find db n).isSome →
        package_remove cfg catalog db n =
          (TINYPKG_SUCCESS, package_db_remove n db)) := by
  refine ⟨?_, ?_, ?_⟩
  · intro h
    simp [package_remove, h]
  · intro hf hs hd
    rcases Option.isSome_iff_exists.mp hs with ⟨e, he⟩
    simp [package_remove, he, hf, hd]
  · intro hf hs
    rcases Option.isSome_iff_exists.mp hs with ⟨e, he⟩
    simp [package_remove, he, hf]

/-- Witness for `c9_package_remove_spec`: a database holding `app`
(which depends on `lib`) and `lib`. -/
theorem c9_package_remove_spec_witness :
    package_remove { force_mode := false }
        (fun m =>
          if m = "app" then some { name := "app", dependencies := ["lib"] }
          else if m = "lib" then some { name := "lib" } else none)
        [⟨"app", "1", "", 0, 0, 5⟩, ⟨"lib", "1", "", 0, 0, 5⟩] "lib" =
      (TINYPKG_ERROR_DEPENDENCY,
        [⟨"app", "1", "", 0, 0, 5⟩, ⟨"lib", "1", "", 0, 0, 5⟩])
    ∧ package_remove { force_mode := true }
        (fun m =>
          if m = "app" then some { name := "app", dependencies := ["lib"] }
          else if m = "lib" then some { name := "lib" } else none)
        [⟨"app", "1", "", 0, 0, 5⟩, ⟨"lib", "1", "", 0, 0, 5⟩] "lib" =
      (TINYPKG_SUCCESS,
        package_db_remove "lib"
          [⟨"app", "1", "", 0, 0, 5⟩, ⟨"lib", "1", "", 0, 0, 5⟩])
    ∧ package_remove { force_mode := false }
        (fun m =>
          if m = "app" then some { name := "app", dependencies := ["lib"] }
          else if m = "lib" then some { name := "lib" } else none)
        [⟨"app", "1", "", 0, 0, 5⟩, ⟨"lib", "1", "", 0, 0, 5⟩] "ghost" =
      (TINYPKG_SUCCESS,
        [⟨"app", "1", "", 0, 0, 5⟩, ⟨"lib", "1", "", 0, 0, 5⟩]) :=
  ⟨(c9_package_remove_spec { force_mode := false } _ _ "lib").2.1 rfl
      (by decide) (by decide),
    (c9_package_remove_spec { force_mode := true } _ _ "lib").2.2 rfl
      (by decide),
    (c9_package_remove_spec { force_mode := false } _ _ "ghost").1
      (by decide)⟩

/-- C10: for a name with no database row, `package_set_state` returns
`TINYPKG_SUCCESS`, leaves the in-memory database unchanged, and never
calls `package_db_save` (third component `false`), so the persisted
file is untouched; consequently the transient states written by
`package_install` for a never-installed package are never recorded. -/
theorem c10_set_state_absent_noop (n : String) (st : Int) (db : Db)
    (h : package_db_find db n = none) :
    package_set_state n st db = (TINYPKG_SUCCESS, db, false) := by
  simp [package_set_state, h]

/-- Witness for `c10_set_state_absent_noop`: setting the `downloading`
state of an absent package on a one-row database. -/
theorem c10_set_state_absent_noop_witness :
    package_set_state "newpkg" PKG_STATE_DOWNLOADING
        [⟨"zlib", "1.3", "compression", 100, 5, 5⟩] =
      (TINYPKG_SUCCESS, [⟨"zlib", "1.3", "compression", 100, 5, 5⟩],
        false) :=
  c10_set_state_absent_noop "newpkg" PKG_STATE_DOWNLOADING
    [⟨"zlib", "1.3", "compression", 100, 5, 5⟩] (by decide)

/-! ## Resolver evaluations -/

/-- The catalog `A -> [B]`, `B -> []` of the linear-chain scenario. -/
def catalogChain : Catalog := fun n =>
  if n = "A" then some { name := "A", dependencies := ["B"] }
  else if n = "B" then some { name := "B" } else none

/-- The 2-cycle catalog `A -> [B]`, `B -> [A]`. -/
def catalogTwoCycle : Catalog := fun n =>
  if n = "A" then some { name := "A", dependencies := ["B"] }
  else if n = "B" then some { name := "B", dependencies := ["A"] } else none

/-- C1: `dependency_resolve` emits the *requested* package first and its
dependencies after it.  On the catalog where `A` declares dependency
`B`, the returned order is `["A", "B"]`: the last element is `"B"`, not
the requested `"A"`, and the declared dependency `B` appears *later*
than the package declaring it — the in-degree orientation of the
Kahn loop in `dependency_graph_topological_sort` makes dependents, not
dependencies, come first, while `package_install` (src/package.c line
75, `// -1 to skip the package itself`) consumes the order assuming the
requested package is last. -/
theorem c1_resolve_order_eval :
    dependency_resolve catalogChain "A" = Except.ok ["A", "B"]
    ∧ ["A", "B"].getLast? = some "B"
    ∧ "B" ≠ "A"
    ∧ List.indexOf "B" ["A", "B"] > List.indexOf "A" ["A", "B"] := by
  refine ⟨by rfl, by rfl, by decide, by decide⟩

/-- C5: on the 2-cycle `A -> B -> A`, `dependency_resolve` succeeds with
order `["A", "B"]` instead of reporting the dependency-cycle error:
`dependency_graph_build` iterates only the nodes present when it starts
(new nodes are prepended before the traversal cursor), so `B`'s declared
dependency on `A` is never loaded into the graph and
`dependency_detect_cycles` sees no back edge. -/
theorem c5_two_cycle_not_detected :
    dependency_resolve catalogTwoCycle "A" = Except.ok ["A", "B"]
    ∧ dependency_resolve catalogTwoCycle "A" ≠
        Except.error TINYPKG_ERROR_DEPENDENCY := by
  have h1 : dependency_resolve catalogTwoCycle "A" = Except.ok ["A", "B"] := by
    rfl
  refine ⟨h1, ?_⟩
  rw [h1]
  intro hcontra
  exact Except.noConfusion hcontra

/-! ## Integrity verifier (src/security.c) -/

/-- `hash_type_t` (src/security.c header part). -/
inductive HashType where
  | md5
  | sha1
  | sha256
  deriving Repr, DecidableEq

/-- The fields of `security_context_t` the verifier reads; `security_init`
sets `verify_checksums = 1`. -/
structure SecurityCtx where
  verify_checksums : Bool := true
  deriving Repr, DecidableEq

/-- Oracle for the external digest tools: what `md5sum` / `sha1sum` /
`sha256sum` print for a file (first output token), or `none` when the
file is missing or the command fails.  This is the observable behaviour
of `security_calculate_checksum` (src/security.c lines 70-106), whose
command dispatch selects the tool from the hash type. -/
abbrev HashOracle := String → HashType → Option String

/-- `security_calculate_checksum` through the oracle. -/
def security_calculate_checksum (oracle : HashOracle) (file_path : String)
    (t : HashType) : Option String :=
  oracle file_path t

/-- ASCII case folding; `strcasecmp(a, b) == 0` is
`strLower a = strLower b`. -/
def strLower (s : String) : String :=
  String.mk (s.data.map Char.toLower)

/-- `security_verify_checksum` (src/security.c lines 109-137): skip when
checksum verification is disabled; fail when the digest cannot be
computed; otherwise compare case-insensitively. -/
def security_verify_checksum (sctx : SecurityCtx) (oracle : HashOracle)
    (file_path expected_hash : String) (t : HashType) : Int :=
  if !sctx.verify_checksums then TINYPKG_SUCCESS
  else
    match security_calculate_checksum oracle file_path t with
    | none => TINYPKG_ERROR
    | some calculated_hash =>
      if strLower calculated_hash = strLower expected_hash then
        TINYPKG_SUCCESS
      else TINYPKG_ERROR

/-- `isxdigit`. -/
def isXDigitChar (c : Char) : Bool :=
  c.isDigit || ('a' ≤ c && c ≤ 'f') || ('A' ≤ c && c ≤ 'F')

/-- `security_detect_hash_type` (src/security.c lines 140-158): any
non-hex character falls back to SHA-256; otherwise the length decides
(32 = MD5, 40 = SHA-1, 64 = SHA-256, default SHA-256). -/
def security_detect_hash_type (hash_string : String) : HashType :=
  if !hash_string.data.all isXDigitChar then HashType.sha256
  else if hash_string.length = 32 then HashType.md5
  else if hash_string.length = 40 then HashType.sha1
  else if hash_string.length = 64 then HashType.sha256
  else HashType.sha256

/-- `security_verify_package_integrity` (src/security.c lines 161-180):
skip when verification is disabled or no checksum is declared; otherwise
auto-detect the hash type and verify. -/
def security_verify_package_integrity (sctx : SecurityCtx)
    (oracle : HashOracle) (pkg : Package) (file_path : String) : Int :=
  if !sctx.verify_checksums then TINYPKG_SUCCESS
  else if pkg.checksum.length = 0 then TINYPKG_SUCCESS
  else
    security_verify_checksum sctx oracle file_path pkg.checksum
      (security_detect_hash_type pkg.checksum)

/-- C8: for an all-hex expected digest the algorithm is inferred from
its length (32 = MD5, 40 = SHA-1, 64 = SHA-256); with verification
enabled and a computable digest, `security_verify_checksum` returns
`TINYPKG_SUCCESS` exactly when the computed digest equals the expected
one up to ASCII case, and returns `TINYPKG_ERROR` whenever they differ
up to case (e.g. when one hex nibble is flipped). -/
theorem c8_checksum_verification (s : String)
    (hhex : s.data.all isXDigitChar = true) (sctx : SecurityCtx)
    (oracle : HashOracle) (file_path expected dg : String) (t : HashType)
    (hen : sctx.verify_checksums = true)
    (hcalc : oracle file_path t = some dg) :
    (s.length = 32 → security_detect_hash_type s = HashType.md5)
    ∧ (s.length = 40 → security_detect_hash_type s = HashType.sha1)
    ∧ (s.length = 64 → security_detect_hash_type s = HashType.sha256)
    ∧ (security_verify_checksum sctx oracle file_path expected t =
          TINYPKG_SUCCESS ↔ strLower dg = strLower expected)
    ∧ (strLower dg ≠ strLower expected →
        security_verify_checksum sctx oracle file_path expected t =
          TINYPKG_ERROR) := by
  refine ⟨?_, ?_, ?_, ?_, ?_⟩
  · intro h32
    simp [security_detect_hash_type, hhex, h32]
  · intro h40
    have : s.length ≠ 32 := by omega
    simp [security_detect_hash_type, hhex, h40, this]
  · intro h64
    have h1 : s.length ≠ 32 := by omega
    have h2 : s.length ≠ 40 := by omega
    simp [security_detect_hash_type, hhex, h64, h1, h2]
  · have hv : security_verify_checksum sctx oracle file_path expected t =
        if strLower dg = strLower expected then TINYPKG_SUCCESS
        else TINYPKG_ERROR := by
      simp [security_verify_checksum, security_calculate_checksum, hen,
        hcalc]
    rw [hv]
    by_cases heq : strLower dg = strLower expected
    · rw [if_pos heq]
      exact ⟨fun _ => heq, fun _ => rfl⟩
    · rw [if_neg heq]
      exact ⟨fun hc => absurd hc (by decide), fun hc => absurd hc heq⟩
  · intro hne
    simp [security_verify_checksum, security_calculate_checksum, hen,
      hcalc, hne]

/-- Witness for `c8_checksum_verification`: a 32-hex-digit digest is
detected as MD5; a digest matching up to case verifies, and flipping its
last nibble makes verification fail. -/
theorem c8_checksum_verification_witness :
    ("0123456789abcdef0123456789abcdef".data.all isXDigitChar = true
      ∧ ("0123456789abcdef0123456789abcdef" : String).length = 32
      ∧ security_detect_hash_type "0123456789abcdef0123456789abcdef" =
          HashType.md5)
    ∧ security_verify_checksum { verify_checksums := true }
        (fun _ _ => some "0123456789ABCDEF0123456789abcdef")
        "/var/cache/tinypkg/sources/pkg.tar.gz"
        "0123456789abcdef0123456789abcdef" HashType.md5 = TINYPKG_SUCCESS
    ∧ security_verify_checksum { verify_checksums := true }
        (fun _ _ => some "0123456789ABCDEF0123456789abcdef")
        "/var/cache/tinypkg/sources/pkg.tar.gz"
        "0123456789abcdef0123456789abcdee" HashType.md5 = TINYPKG_ERROR := by
  have hmain := c8_checksum_verification
    "0123456789abcdef0123456789abcdef" (by decide)
    { verify_checksums := true }
    (fun _ _ => some "0123456789ABCDEF0123456789abcdef")
    "/var/cache/tinypkg/sources/pkg.tar.gz"
    "0123456789abcdef0123456789abcdef"
    "0123456789ABCDEF0123456789abcdef" HashType.md5 rfl rfl
  have hmis := c8_checksum_verification
    "0123456789abcdef0123456789abcdef" (by decide)
    { verify_checksums := true }
    (fun _ _ => some "0123456789ABCDEF0123456789abcdef")
    "/var/cache/tinypkg/sources/pkg.tar.gz"
    "0123456789abcdef0123456789abcdee"
    "0123456789ABCDEF0123456789abcdef" HashType.md5 rfl rfl
  refine ⟨⟨by decide, by decide, hmain.1 (by decide)⟩,
    hmain.2.2.2.1.mpr (by decide), hmis.2.2.2.2 (by decide)⟩

/-! ## Build runner (src/build.c)

External effects are an explicit world record; the C global
`active_builds[16]` / `active_build_count` pair is a Lean list (at most
16 entries in the code's reachable states; the capacity check is
embedded in `add_active_build`). -/

def CACHE_DIR : String := "/var/cache/tinypkg"

/-- `build_status_t` (src/build.h). -/
inductive BuildStatus where
  | init
  | downloading
  | extracting
  | configuring
  | building
  | installing
  | complete
  | failed
  deriving Repr, DecidableEq

/-- `build_context_t`: the fields `build_package` and the phase
functions read. -/
structure BuildCtx where
  package : Package
  build_dir : String
  source_dir : String
  install_dir : String
  deriving Repr, DecidableEq

/-- The world of external effects seen by the build runner:
`utils_file_exists`, `utils_run_command` (command, optional working
directory, returning the `int` result), `utils_create_directory_recursive`,
`utils_remove_directory_recursive`, and the digest tools of the
integrity verifier. -/
structure BuildWorld where
  file_exists : String → Bool
  run_command : String → Option String → Int
  create_dir : String → Int
  remove_dir : String → Int
  hash_output : HashOracle

/-- POSIX `basename(3)` as used by `utils_get_basename`
(src/unnamed/part_008 lines 304-315): the last non-empty path
component; `""` gives `"."` and an all-slash path gives `"/"`. -/
def utils_get_basename (path : String) : String :=
  let comp :=
    ((path.data.reverse.dropWhile (fun c => c = '/')).takeWhile
      (fun c => c ≠ '/')).reverse
  if comp.isEmpty then (if path.data.isEmpty then "." else "/")
  else String.mk comp

/-- `utils_string_ends_with` (suffix test on the raw characters). -/
def strEndsWith (s suffix : String) : Bool :=
  List.isSuffixOf suffix.data s.data

/-- `build_download_source` (src/build.c lines 196-235): compute the
cache path from the URL basename; if the file is already cached return
success immediately; otherwise create the sources directory and run the
wget-or-curl command.  No integrity verification is performed anywhere
in this function. -/
def build_download_source (w : BuildWorld) (pkg : Package) : Int :=
  let base := utils_get_basename pkg.source_url
  let download_path := CACHE_DIR ++ "/sources/" ++ base
  if w.file_exists download_path then TINYPKG_SUCCESS
  else
    let _ := w.create_dir (CACHE_DIR ++ "/sources")
    let cmd := "wget -O '" ++ download_path ++ "' '" ++ pkg.source_url ++
      "' || curl -o '" ++ download_path ++ "' -L '" ++ pkg.source_url ++ "'"
    w.run_command cmd none

/-- `build_extract_source` (src/build.c lines 237-284): dispatch the
extraction command on the archive suffix; unknown suffixes and a
missing archive are errors. -/
def build_extract_source (w : BuildWorld) (ctx : BuildCtx) : Int :=
  let base := utils_get_basename ctx.package.source_url
  let archive_path := CACHE_DIR ++ "/sources/" ++ base
  if !w.file_exists archive_path then TINYPKG_ERROR
  else if strEndsWith base ".tar.gz" || strEndsWith base ".tgz" then
    w.run_command
      ("tar -xzf '" ++ archive_path ++ "' -C '" ++ ctx.source_dir ++
        "' --strip-components=1") none
  else if strEndsWith base ".tar.bz2" || strEndsWith base ".tbz2" then
    w.run_command
      ("tar -xjf '" ++ archive_path ++ "' -C '" ++ ctx.source_dir ++
        "' --strip-components=1") none
  else if strEndsWith base ".tar.xz" then
    w.run_command
      ("tar -xJf '" ++ archive_path ++ "' -C '" ++ ctx.source_dir ++
        "' --strip-components=1") none
  else if strEndsWith base ".zip" then
    w.run_command
      ("unzip -q '" ++ archive_path ++ "' -d '" ++ ctx.source_dir ++ "'")
      none
  else TINYPKG_ERROR

/-- `build_detect_system` (src/build.c lines 363-388). -/
def build_detect_system (w : BuildWorld) (source_dir : String) : BuildType :=
  if w.file_exists (source_dir ++ "/CMakeLists.txt") then BuildType.cmake
  else if w.file_exists (source_dir ++ "/configure") then BuildType.autotools
  else if w.file_exists (source_dir ++ "/Makefile") then BuildType.make
  else BuildType.autotools

/-- `build_run_autotools` (src/build.c lines 390-423): possibly attempt
to generate `configure` (result only logged), then run it with the
configured install path. -/
def build_run_autotools (w : BuildWorld) (cfg : Config) (ctx : BuildCtx) :
    Int :=
  let _ := if !w.file_exists (ctx.source_dir ++ "/configure") then
      w.run_command "./autogen.sh || autoreconf -fiv || ./bootstrap"
        (some ctx.source_dir)
    else 0
  let args := ctx.package.configure_args
  let cmd := if args.length > 0 then
      "./configure --prefix=" ++ cfg.installPfx ++ " " ++ args
    else "./configure --prefix=" ++ cfg.installPfx
  w.run_command cmd (some ctx.source_dir)

/-- `build_run_cmake` (src/build.c lines 425-439). -/
def build_run_cmake (w : BuildWorld) (cfg : Config) (ctx : BuildCtx) : Int :=
  let build_type := if cfg.debug_symbols then "Debug" else "Release"
  let args := if ctx.package.configure_args.length > 0 then
      ctx.package.configure_args
    else ""
  w.run_command
    ("cmake -DCMAKE_BUILD_TYPE=" ++ build_type ++
      " -DCMAKE_INSTALL_PREFIX=" ++ cfg.installPfx ++ " " ++ args ++ " .")
    (some ctx.source_dir)

/-- `build_run_custom` (src/build.c lines 447-457). -/
def build_run_custom (ctx : BuildCtx) : Int :=
  if ctx.package.build_cmd.length = 0 then TINYPKG_ERROR
  else TINYPKG_SUCCESS

/-- `build_configure_package` (src/build.c lines 286-311): auto-detect
when the record says autotools and no custom build command is set, then
dispatch. -/
def build_configure_package (w : BuildWorld) (cfg : Config)
    (ctx : BuildCtx) : Int :=
  let bs := if ctx.package.build_system = BuildType.autotools ∧
      ctx.package.build_cmd.length = 0 then
      build_detect_system w ctx.source_dir
    else ctx.package.build_system
  match bs with
  | BuildType.autotools => build_run_autotools w cfg ctx
  | BuildType.cmake => build_run_cmake w cfg ctx
  | BuildType.make => TINYPKG_SUCCESS
  | BuildType.custom => build_run_custom ctx

/-- `build_compile_package` (src/build.c lines 313-330). -/
def build_compile_package (w : BuildWorld) (cfg : Config) (ctx : BuildCtx) :
    Int :=
  let cmd := if ctx.package.build_cmd.length > 0 then ctx.package.build_cmd
    else "make -j" ++ toString cfg.parallel_jobs
  w.run_command cmd (some ctx.source_dir)

/-- `build_context_create` (src/build.c lines 144-170): derive the three
directories from the cache root, package name and version, then create
them (`build_context_setup_directories`, lines 177-186, fails when any
of the three `mkdir` calls fails); on failure the context is freed and
`NULL` returned. -/
def build_context_create (w : BuildWorld) (pkg : Package) :
    Option BuildCtx :=
  let build_dir := CACHE_DIR ++ "/builds/" ++ pkg.name ++ "-" ++ pkg.version
  let ctx : BuildCtx :=
    ⟨pkg, build_dir, build_dir ++ "/source", build_dir ++ "/install"⟩
  if w.create_dir ctx.build_dir = 0 ∧ w.create_dir ctx.source_dir = 0 ∧
      w.create_dir ctx.install_dir = 0 then
    some ctx
  else none

/-- `add_active_build` (src/build.c lines 26-32): reject when 16 entries
are present, otherwise append at `active_builds[active_build_count]`. -/
def add_active_build (table : List BuildCtx) (ctx : BuildCtx) :
    Int × List BuildCtx :=
  if 16 ≤ table.length then (TINYPKG_ERROR, table)
  else (TINYPKG_SUCCESS, table ++ [ctx])

/-- `remove_active_build` (src/build.c lines 34-45): remove the first
slot holding this context and shift the rest down.  C compares context
*pointers*; value equality models that here (each `build_package` call
works on a freshly allocated context). -/
def remove_active_build (ctx : BuildCtx) : List BuildCtx → List BuildCtx
  | [] => []
  | c :: rest =>
    if c = ctx then rest else c :: remove_active_build ctx rest

/-- `build_is_running` (src/build.c lines 474-485). -/
def build_is_running (table : List BuildCtx) (package_name : String) :
    Bool :=
  table.any (fun c => c.package.name == package_name)

/-- The phase chain of `build_package` (src/build.c lines 61-100): each
phase runs only when every earlier phase returned success; the returned
triple is (result, phases entered, final status where a failure sets
`BUILD_STATUS_FAILED` in the cleanup path). -/
def runBuildPhases (w : BuildWorld) (cfg : Config) (ctx : BuildCtx) :
    Int × List BuildStatus × BuildStatus :=
  let r1 := build_download_source w ctx.package
  if r1 ≠ TINYPKG_SUCCESS then (r1, [BuildStatus.downloading],
    BuildStatus.failed)
  else
    let r2 := build_extract_source w ctx
    if r2 ≠ TINYPKG_SUCCESS then
      (r2, [BuildStatus.downloading, BuildStatus.extracting],
        BuildStatus.failed)
    else
      let r3 := build_configure_package w cfg ctx
      if r3 ≠ TINYPKG_SUCCESS then
        (r3, [BuildStatus.downloading, BuildStatus.extracting,
          BuildStatus.configuring], BuildStatus.failed)
      else
        let r4 := build_compile_package w cfg ctx
        if r4 ≠ TINYPKG_SUCCESS then
          (r4, [BuildStatus.downloading, BuildStatus.extracting,
            BuildStatus.configuring, BuildStatus.building],
            BuildStatus.failed)
        else
          (TINYPKG_SUCCESS, [BuildStatus.downloading,
            BuildStatus.extracting, BuildStatus.configuring,
            BuildStatus.building], BuildStatus.complete)

/-- The observable outcome of one `build_package` call. -/
structure BuildOutcome where
  result : Int
  table : List BuildCtx
  cleaned : Bool
  phases_run : List BuildStatus
  status : BuildStatus
  deriving Repr, DecidableEq

/-- `build_package` (src/build.c lines 48-117).  The return value of
`add_active_build` is discarded by the caller (line 59), so a full
table does not stop the build.  On exit the context is removed from the
table and the build directory is removed when
`!global_config->keep_build_dir || result != TINYPKG_SUCCESS`
(lines 111-113); `cleaned` records whether `build_context_cleanup`
ran. -/
def build_package (w : BuildWorld) (cfg : Config) (table : List BuildCtx)
    (pkg : Package) : BuildOutcome :=
  match build_context_create w pkg with
  | none =>
    { result := TINYPKG_ERROR_MEMORY, table := table, cleaned := false,
      phases_run := [], status := BuildStatus.init }
  | some ctx =>
    let table1 := (add_active_build table ctx).2
    let pr := runBuildPhases w cfg ctx
    let table2 := remove_active_build ctx table1
    let cleaned := !cfg.keep_build_dir || decide (pr.1 ≠ TINYPKG_SUCCESS)
    let _ := if cleaned then w.remove_dir ctx.build_dir else 0
    { result := pr.1, table := table2, cleaned := cleaned,
      phases_run := pr.2.1, status := pr.2.2 }

/-! ## Build-runner theorems -/

theorem remove_active_build_of_not_mem (ctx : BuildCtx)
    (l : List BuildCtx) (h : ctx ∉ l) : remove_active_build ctx l = l := by
  induction l with
  | nil => rfl
  | cons c rest ih =>
    have hne : c ≠ ctx := fun hc => h (hc ▸ List.mem_cons_self c rest)
    simp only [remove_active_build, if_neg hne]
    rw [ih (fun hm => h (List.mem_cons_of_mem c hm))]

/-- The package and world of the integrity-failure scenario: the package
declares a 32-hex-digit checksum, the artifact is already in the cache,
and the digest tools report a digest that differs from the declared
one. -/
def pkgChk : Package :=
  { name := "p", version := "1.0",
    source_url := "http://mirror.example/p-1.0.tar.gz",
    checksum := "0123456789abcdef0123456789abcdef" }

def worldChk : BuildWorld :=
  { file_exists := fun _ => true, run_command := fun _ _ => 0,
    create_dir := fun _ => 0, remove_dir := fun _ => 0,
    hash_output := fun _ _ => some "ffffffffffffffffffffffffffffffff" }

/-- C2: the Fetch phase never runs the integrity verifier.  For a
package that carries a checksum and whose cached artifact has a
*mismatching* digest, `build_download_source` returns success — there
is no call to `security_verify_package_integrity` (or to any digest
computation) anywhere in it — although the verifier, had it been run on
that artifact, would have reported the fatal mismatch. -/
theorem c2_fetch_never_verifies :
    pkgChk.checksum.length > 0
    ∧ build_download_source worldChk pkgChk = TINYPKG_SUCCESS
    ∧ security_verify_package_integrity { verify_checksums := true }
        worldChk.hash_output pkgChk
        (CACHE_DIR ++ "/sources/" ++ utils_get_basename pkgChk.source_url)
        = TINYPKG_ERROR := by
  refine ⟨by decide, by decide, by decide⟩

/-- Concrete data for the cleanup rule: a world where every command
succeeds except the final `make -j4`, so the build fails in the compile
phase. -/
def pkgGadget : Package :=
  { name := "gadget", version := "2.1",
    source_url := "http://mirror.example/gadget-2.1.tar.gz" }

def worldCompileFails : BuildWorld :=
  { file_exists := fun _ => true,
    run_command := fun cmd _ => if cmd = "make -j4" then TINYPKG_ERROR
      else TINYPKG_SUCCESS,
    create_dir := fun _ => 0, remove_dir := fun _ => 0,
    hash_output := fun _ _ => none }

/-- C3 counterexample: with `keep_build_dir` set and a *failed* build —
exactly the single case in which the claim says the build directory is
retained — `build_package` removes the build directory
(`build_context_cleanup` runs because `result != TINYPKG_SUCCESS`). -/
theorem c3_counterexample :
    (build_package worldCompileFails { keep_build_dir := true } []
        pkgGadget).result ≠ TINYPKG_SUCCESS
    ∧ (build_package worldCompileFails { keep_build_dir := true } []
        pkgGadget).cleaned = true := by
  refine ⟨by decide, by decide⟩

/-- C3 amended: on exit from `build_package` (whenever a build context
was actually created), the build directory is removed exactly when
`keep_build_dir` is unset *or* the outcome was a failure — i.e. it is
retained only when `keep_build_dir` is set and the build *succeeded*,
the opposite polarity of the claim. -/
theorem c3_cleanup_rule (w : BuildWorld) (cfg : Config)
    (table : List BuildCtx) (pkg : Package)
    (h : (build_context_create w pkg).isSome) :
    (build_package w cfg table pkg).cleaned = true ↔
      (cfg.keep_build_dir = false ∨
        (build_package w cfg table pkg).result ≠ TINYPKG_SUCCESS) := by
  rcases Option.isSome_iff_exists.mp h with ⟨ctx, hc⟩
  simp only [build_package, hc]
  simp [Bool.or_eq_true, Bool.not_eq_true', decide_eq_true_eq]

/-- Witness for `c3_cleanup_rule` at the failed-build world with
`keep_build_dir` set. -/
theorem c3_cleanup_rule_witness :
    (build_context_create worldCompileFails pkgGadget).isSome
    ∧ ((build_package worldCompileFails { keep_build_dir := true } []
          pkgGadget).cleaned = true ↔
        (({ keep_build_dir := true } : Config).keep_build_dir = false ∨
          (build_package worldCompileFails { keep_build_dir := true } []
            pkgGadget).result ≠ TINYPKG_SUCCESS)) :=
  ⟨by decide,
    c3_cleanup_rule worldCompileFails { keep_build_dir := true } []
      pkgGadget (by decide)⟩

/-- Concrete data for the active-build table: sixteen in-progress
contexts of another package, and an all-succeeding world. -/
def ctxOld : BuildCtx :=
  ⟨{ name := "old", version := "0.9" },
    "/var/cache/tinypkg/builds/old-0.9",
    "/var/cache/tinypkg/builds/old-0.9/source",
    "/var/cache/tinypkg/builds/old-0.9/install"⟩

def tableFull : List BuildCtx := List.replicate 16 ctxOld

def pkgWidget : Package :=
  { name := "widget", version := "3.0",
    source_url := "http://mirror.example/widget-3.0.tar.gz" }

def worldAllOk : BuildWorld :=
  { file_exists := fun _ => true, run_command := fun _ _ => 0,
    create_dir := fun _ => 0, remove_dir := fun _ => 0,
    hash_output := fun _ _ => none }

/-- C4 counterexample: with sixteen contexts already in progress,
`build_package` does *not* reject the new build — the error returned by
`add_active_build` is discarded at src/build.c line 59 — and the build
proceeds through all four phases and returns success. -/
theorem c4_counterexample :
    (build_package worldAllOk {} tableFull pkgWidget).result =
      TINYPKG_SUCCESS
    ∧ (build_package worldAllOk {} tableFull pkgWidget).phases_run =
        [BuildStatus.downloading, BuildStatus.extracting,
          BuildStatus.configuring, BuildStatus.building]
    ∧ (build_package worldAllOk {} tableFull pkgWidget).table =
        tableFull := by
  refine ⟨by decide, by decide, by decide⟩

/-- C4 amended: the runner keeps a capacity-16 table of in-progress
contexts, but exceeding the capacity does not reject the build: the new
context is simply never entered into the table (so the table is
unchanged on exit) and the build runs exactly as it would with a
non-full table — same result and same phases. -/
theorem c4_table_full_not_rejected (w : BuildWorld) (cfg : Config)
    (table : List BuildCtx) (pkg : Package) (h16 : 16 ≤ table.length)
    (hfresh : ∀ ctx ∈ table, build_context_create w pkg ≠ some ctx) :
    (build_package w cfg table pkg).table = table
    ∧ (build_package w cfg table pkg).result =
        (build_package w cfg [] pkg).result
    ∧ (build_package w cfg table pkg).phases_run =
        (build_package w cfg [] pkg).phases_run := by
  cases hc : build_context_create w pkg with
  | none => simp [build_package, hc]
  | some ctx =>
    have hnotmem : ctx ∉ table := by
      intro hm
      exact hfresh ctx hm hc
    have hadd : (add_active_build table ctx).2 = table := by
      simp [add_active_build, if_pos h16]
    refine ⟨?_, ?_, ?_⟩
    · simp only [build_package, hc, hadd]
      exact remove_active_build_of_not_mem ctx table hnotmem
    · simp [build_package, hc]
    · simp [build_package, hc]

/-- Witness for `c4_table_full_not_rejected` at the concrete full
table. -/
theorem c4_table_full_not_rejected_witness :
    (16 ≤ tableFull.length
      ∧ ∀ ctx ∈ tableFull,
          build_context_create worldAllOk pkgWidget ≠ some ctx)
    ∧ ((build_package worldAllOk {} tableFull pkgWidget).table = tableFull
      ∧ (build_package worldAllOk {} tableFull pkgWidget).result =
          (build_package worldAllOk {} [] pkgWidget).result
      ∧ (build_package worldAllOk {} tableFull pkgWidget).phases_run =
          (build_package worldAllOk {} [] pkgWidget).phases_run) :=
  ⟨⟨by decide, by decide⟩,
    c4_table_full_not_rejected worldAllOk {} tableFull pkgWidget
      (by decide) (by decide)⟩

/-! ## Database persistence (src/package.c, `package_db_save` /
`package_db_load`)

`package_db_save` writes two `#` header lines and then one line per row,
`fprintf(fp, "%s\t%s\t%s\t%ld\t%zu\t%d\n", ...)` (lines 570-579).
`package_db_load` reads lines with `fgets` (so every line keeps its
trailing newline), skips lines starting with `#` or `\n`, parses each
with `sscanf(line, "%255s\t%63s\t%511[^\t]\t%ld\t%zu\t%d", ...)` into a
zero-initialised row, prepends rows with at least 3 converted fields to
the list head, and discards the rest (lines 604-627).

The `sscanf` conversions are modelled on character lists: `%s` skips
whitespace then takes up to `width` non-whitespace characters;
`%[^\t]` takes (without any whitespace skip) up to `width` characters
other than tab; `%ld`/`%d` skip whitespace, accept an optional `-` and
then decimal digits; `%zu` skips whitespace and accepts decimal digits
(the printer only ever emits canonical decimal, so the `+` sign and the
unsigned wrap-around of out-of-range C input are not modelled).  The
whitespace directives of the format string are absorbed by the
following conversion's own whitespace skip, except before the scanset,
which performs no skip of its own and therefore gets an explicit one. -/

/-- C `isspace`. -/
def isSpaceChar (c : Char) : Bool :=
  c = ' ' || c = '\t' || c = '\n' || c = '\r' ||
    c = Char.ofNat 11 || c = Char.ofNat 12

def skipWS (s : List Char) : List Char := s.dropWhile isSpaceChar

/-- Decimal digit character. -/
def digitChar (d : Nat) : Char := Char.ofNat (48 + d)

/-- Big-endian decimal digits of `n`; the fuel (always called with
`fuel = n ≥ n`) makes the division recursion structural. -/
def natToCharsAux : Nat → Nat → List Char
  | 0, _ => []
  | fuel + 1, n =>
    if n = 0 then [] else natToCharsAux fuel (n / 10) ++ [digitChar (n % 10)]

/-- `printf` rendering of an unsigned decimal. -/
def natToChars (n : Nat) : List Char :=
  if n = 0 then ['0'] else natToCharsAux n n

/-- `printf` rendering of a signed decimal (`%ld` / `%d`). -/
def intToChars (i : Int) : List Char :=
  if i < 0 then '-' :: natToChars i.natAbs else natToChars i.toNat

/-- One data line of `package_db_save` (src/package.c lines 575-577),
including the trailing newline `fgets` will hand back. -/
def formatLine (e : DbEntry) : List Char :=
  e.name.data ++ '\t' :: (e.version.data ++ '\t' :: (e.description.data ++
    '\t' :: (intToChars e.install_time ++ '\t' ::
      (natToChars e.installed_size ++ '\t' ::
        (intToChars e.state ++ ['\n'])))))

/-- The two header lines of the database file (src/package.c lines
570-571). -/
def dbFileHeader : List (List Char) :=
  ["# TinyPkg Installed Packages Database\n".data,
    ("# Format: name\tversion\tdescription\tinstall_time" ++
      "\tinstalled_size\tstate\n").data]

/-- `package_db_save` as the sequence of lines it writes. -/
def package_db_save_lines (db : Db) : List (List Char) :=
  dbFileHeader ++ db.map formatLine

/-- `%s` with a width: skip whitespace, take up to `width` non-whitespace
characters; fail on none. -/
def scanStr (width : Nat) (s : List Char) :
    Option (List Char × List Char) :=
  let s1 := skipWS s
  let tok := (s1.takeWhile (fun c => !isSpaceChar c)).take width
  if tok.isEmpty then none else some (tok, s1.drop tok.length)

/-- `%[^\t]` with a width: no whitespace skip, take up to `width`
characters other than tab; fail on none. -/
def scanSetNoTab (width : Nat) (s : List Char) :
    Option (List Char × List Char) :=
  let tok := (s.takeWhile (fun c => !(c == '\t'))).take width
  if tok.isEmpty then none else some (tok, s.drop tok.length)

/-- Value of a big-endian digit string. -/
def digitsVal (ds : List Char) : Nat :=
  ds.foldl (fun a c => 10 * a + (c.toNat - 48)) 0

/-- `%zu`: skip whitespace, then decimal digits. -/
def scanNat (s : List Char) : Option (Nat × List Char) :=
  let s1 := skipWS s
  let ds := s1.takeWhile Char.isDigit
  if ds.isEmpty then none else some (digitsVal ds, s1.drop ds.length)

/-- `%ld` / `%d`: skip whitespace, optional `-`, then decimal digits. -/
def scanInt (s : List Char) : Option (Int × List Char) :=
  let s1 := skipWS s
  if s1.head? = some '-' then
    let r := s1.tail
    let ds := r.takeWhile Char.isDigit
    if ds.isEmpty then none
    else some (-(digitsVal ds : Int), r.drop ds.length)
  else
    let ds := s1.takeWhile Char.isDigit
    if ds.isEmpty then none else some ((digitsVal ds : Int), s1.drop ds.length)

/-- The `sscanf` of `package_db_load` (src/package.c lines 616-619):
returns the number of converted fields together with the row, whose
unconverted fields keep their `calloc` zeros. -/
def parseLine (line : List Char) : Nat × DbEntry :=
  let e0 : DbEntry := {}
  match scanStr 255 line with
  | none => (0, e0)
  | some (nm, r1) =>
    let e1 := { e0 with name := String.mk nm }
    match scanStr 63 r1 with
    | none => (1, e1)
    | some (ver, r2) =>
      let e2 := { e1 with version := String.mk ver }
      match scanSetNoTab 511 (skipWS r2) with
      | none => (2, e2)
      | some (dsc, r3) =>
        let e3 := { e2 with description := String.mk dsc }
        match scanInt r3 with
        | none => (3, e3)
        | some (t, r4) =>
          let e4 := { e3 with install_time := t }
          match scanNat r4 with
          | none => (4, e4)
          | some (sz, r5) =>
            let e5 := { e4 with installed_size := sz }
            match scanInt r5 with
            | none => (5, e5)
            | some (st, _) => (6, { e5 with state := st })

/-- One iteration of the `fgets` loop of `package_db_load` (src/package.c
lines 604-627): skip comment and empty lines, prepend rows with at
least 3 fields, discard the rest. -/
def loadStep (acc : Db) (line : List Char) : Db :=
  if line.head? = some '#' || line.head? = some '\n' then acc
  else
    let fe := parseLine line
    if 3 ≤ fe.1 then fe.2 :: acc else acc

/-- `package_db_load` over the file's lines, starting from the empty
list a fresh process has. -/
def package_db_load_lines (lines : List (List Char)) : Db :=
  lines.foldl loadStep []

/-- Wellformedness of a `%s`-parsable token as `package_db_save` prints
it: non-empty, within the scan width, no whitespace characters. -/
abbrev tokenWF (s : String) (width : Nat) : Prop :=
  s.data ≠ [] ∧ s.data.length ≤ width ∧ ∀ c ∈ s.data, isSpaceChar c = false

/-- Wellformedness of a description for the `%511[^\t]` field: non-empty,
within the width, free of tabs and newlines, and not starting with
whitespace (a leading space would be eaten by the preceding whitespace
directive). -/
abbrev descrWF (s : String) : Prop :=
  s.data ≠ [] ∧ s.data.length ≤ 511 ∧ (∀ c ∈ s.data, c ≠ '\t' ∧ c ≠ '\n') ∧
    ∀ c, s.data.head? = some c → isSpaceChar c = false

/-- A database row all of whose fields survive the text format: the
string fields are wellformed tokens (name additionally must not start
with `#`, which would turn its line into a comment), and the numeric
fields fit the C `long` / `size_t` / `int` the scanner writes into. -/
abbrev entryWF (e : DbEntry) : Prop :=
  tokenWF e.name 255 ∧ e.name.data.head? ≠ some '#' ∧
    tokenWF e.version 63 ∧ descrWF e.description ∧
    -(2 ^ 63) ≤ e.install_time ∧ e.install_time < 2 ^ 63 ∧
    e.installed_size < 2 ^ 64 ∧ -(2 ^ 31) ≤ e.state ∧ e.state < 2 ^ 31

/-! ## Printer/scanner inversion lemmas -/

theorem stringMk_data (s : String) : String.mk s.data = s := by
  cases s
  rfl

theorem takeWhile_append_cons {p : Char → Bool} (xs : List Char) (y : Char)
    (ys : List Char) (hxs : ∀ x ∈ xs, p x = true) (hy : p y = false) :
    (xs ++ y :: ys).takeWhile p = xs := by
  induction xs with
  | nil => simp [List.takeWhile_cons, hy]
  | cons a l ih =>
    have ha := hxs a (List.mem_cons_self a l)
    simp only [List.cons_append, List.takeWhile_cons, ha, if_true]
    rw [ih (fun x hx => hxs x (List.mem_cons_of_mem a hx))]

theorem dropWhile_eq_self_of_head {p : Char → Bool} (xs : List Char)
    (h : ∀ c, xs.head? = some c → p c = false) : xs.dropWhile p = xs := by
  cases xs with
  | nil => rfl
  | cons a l => simp [List.dropWhile_cons, h a rfl]

theorem isSpaceChar_eq_false_of_isDigit (c : Char) (h : c.isDigit = true) :
    isSpaceChar c = false := by
  by_contra hcon
  have hsp : isSpaceChar c = true := by
    revert hcon
    cases isSpaceChar c <;> simp
  have hd : ((((c = ' ' ∨ c = '\t') ∨ c = '\n') ∨ c = '\r') ∨
      c = Char.ofNat 11) ∨ c = Char.ofNat 12 := by
    simpa [isSpaceChar, decide_eq_true_eq] using hsp
  rcases hd with ((((h' | h') | h') | h') | h') | h' <;> subst h' <;>
    exact absurd h (by decide)

theorem ne_dash_of_isDigit (c : Char) (h : c.isDigit = true) : c ≠ '-' := by
  intro hc
  subst hc
  exact absurd h (by decide)

theorem isDigit_digitChar (d : Nat) (h : d < 10) :
    (digitChar d).isDigit = true := by
  interval_cases d <;> decide

theorem toNat_digitChar (d : Nat) (h : d < 10) :
    (digitChar d).toNat - 48 = d := by
  interval_cases d <;> decide

theorem digitsVal_append_singleton (ds : List Char) (c : Char) :
    digitsVal (ds ++ [c]) = 10 * digitsVal ds + (c.toNat - 48) := by
  simp [digitsVal, List.foldl_append]

theorem natToCharsAux_isDigit (fuel : Nat) :
    ∀ n, n ≤ fuel → ∀ c ∈ natToCharsAux fuel n, c.isDigit = true := by
  induction fuel with
  | zero => intro n _ c hc; simp [natToCharsAux] at hc
  | succ fuel ih =>
    intro n _ c hc
    by_cases hn : n = 0
    · simp [natToCharsAux, hn] at hc
    · simp only [natToCharsAux, if_neg hn, List.mem_append,
        List.mem_singleton] at hc
      rcases hc with hc | hc
      · have hdiv : n / 10 ≤ fuel := by
          have := Nat.div_lt_self (Nat.pos_of_ne_zero hn)
            (by norm_num : 1 < 10)
          omega
        exact ih (n / 10) hdiv c hc
      · subst hc
        exact isDigit_digitChar (n % 10) (Nat.mod_lt n (by norm_num))

theorem natToCharsAux_val (fuel : Nat) :
    ∀ n, n ≤ fuel → digitsVal (natToCharsAux fuel n) = n := by
  induction fuel with
  | zero =>
    intro n hn
    have : n = 0 := Nat.le_zero.mp hn
    subst this
    rfl
  | succ fuel ih =>
    intro n _
    by_cases hn : n = 0
    · subst hn; rfl
    · have hdiv : n / 10 ≤ fuel := by
        have := Nat.div_lt_self (Nat.pos_of_ne_zero hn)
          (by norm_num : 1 < 10)
        omega
      simp only [natToCharsAux, if_neg hn]
      rw [digitsVal_append_singleton, ih (n / 10) hdiv,
        toNat_digitChar (n % 10) (Nat.mod_lt n (by norm_num))]
      omega

theorem natToChars_isDigit (n : Nat) :
    ∀ c ∈ natToChars n, c.isDigit = true := by
  by_cases hn : n = 0
  · subst hn; intro c hc; simp [natToChars] at hc; subst hc; decide
  · intro c hc
    simp only [natToChars, if_neg hn] at hc
    exact natToCharsAux_isDigit n n (Nat.le_refl n) c hc

theorem natToChars_val (n : Nat) : digitsVal (natToChars n) = n := by
  by_cases hn : n = 0
  · subst hn; rfl
  · simp only [natToChars, if_neg hn]
    exact natToCharsAux_val n n (Nat.le_refl n)

theorem natToChars_ne_nil (n : Nat) : natToChars n ≠ [] := by
  by_cases hn : n = 0
  · subst hn; simp [natToChars]
  · simp only [natToChars, if_neg hn]
    cases hfuel : n with
    | zero => exact absurd hfuel hn
    | succ m =>
      simp only [natToCharsAux, if_neg hn]
      simp

theorem skipWS_tab (xs : List Char) : skipWS ('\t' :: xs) = skipWS xs := by
  have h : isSpaceChar '\t' = true := by decide
  simp [skipWS, List.dropWhile_cons, h]

theorem skipWS_eq_self_of_head (xs : List Char)
    (h : ∀ c, xs.head? = some c → isSpaceChar c = false) :
    skipWS xs = xs :=
  dropWhile_eq_self_of_head xs h

theorem scanStr_core (width : Nat) (tok rest s : List Char)
    (hs : skipWS s = tok ++ '\t' :: rest) (h1 : tok ≠ [])
    (h2 : tok.length ≤ width) (h3 : ∀ c ∈ tok, isSpaceChar c = false) :
    scanStr width s = some (tok, '\t' :: rest) := by
  have htw : (tok ++ '\t' :: rest).takeWhile (fun c => !isSpaceChar c) =
      tok :=
    takeWhile_append_cons tok '\t' rest (fun x hx => by simp [h3 x hx])
      (by decide)
  have hne : tok.isEmpty = false := by
    cases tok with
    | nil => exact absurd rfl h1
    | cons a l => rfl
  simp only [scanStr, hs, htw, List.take_of_length_le h2, hne,
    Bool.false_eq_true, if_false, List.drop_left]

theorem scanSetNoTab_spec (width : Nat) (tok rest : List Char)
    (h1 : tok ≠ []) (h2 : tok.length ≤ width)
    (h3 : ∀ c ∈ tok, c ≠ '\t') :
    scanSetNoTab width (tok ++ '\t' :: rest) = some (tok, '\t' :: rest) := by
  have htw : (tok ++ '\t' :: rest).takeWhile (fun c => !(c == '\t')) =
      tok :=
    takeWhile_append_cons tok '\t' rest (fun x hx => by simp [h3 x hx])
      (by decide)
  have hne : tok.isEmpty = false := by
    cases tok with
    | nil => exact absurd rfl h1
    | cons a l => rfl
  simp only [scanSetNoTab, htw, List.take_of_length_le h2, hne,
    Bool.false_eq_true, if_false, List.drop_left]

theorem scanNat_after_tab (n : Nat) (y : Char) (rest : List Char)
    (hy : y.isDigit = false) :
    scanNat ('\t' :: (natToChars n ++ y :: rest)) = some (n, y :: rest) := by
  have hself : skipWS (natToChars n ++ y :: rest) =
      natToChars n ++ y :: rest := by
    apply skipWS_eq_self_of_head
    intro c hc
    obtain ⟨d, ds, hd⟩ := List.exists_cons_of_ne_nil (natToChars_ne_nil n)
    rw [hd] at hc
    simp only [List.cons_append, List.head?_cons, Option.some.injEq] at hc
    subst hc
    exact isSpaceChar_eq_false_of_isDigit d
      (natToChars_isDigit n d (by rw [hd]; exact List.mem_cons_self _ _))
  have htw : (natToChars n ++ y :: rest).takeWhile Char.isDigit =
      natToChars n :=
    takeWhile_append_cons (natToChars n) y rest (natToChars_isDigit n) hy
  have hne : (natToChars n).isEmpty = false := by
    cases hv : natToChars n with
    | nil => exact absurd hv (natToChars_ne_nil n)
    | cons a l => rfl
  simp only [scanNat, skipWS_tab, hself, htw, hne, Bool.false_eq_true,
    if_false, natToChars_val, List.drop_left]

theorem scanInt_after_tab (t : Int) (y : Char) (rest : List Char)
    (hy : y.isDigit = false) :
    scanInt ('\t' :: (intToChars t ++ y :: rest)) = some (t, y :: rest) := by
  by_cases ht : t < 0
  · have hrepr : intToChars t = '-' :: natToChars t.natAbs := by
      simp [intToChars, ht]
    have hself : skipWS ('-' :: (natToChars t.natAbs ++ y :: rest)) =
        '-' :: (natToChars t.natAbs ++ y :: rest) := by
      apply skipWS_eq_self_of_head
      intro c hc
      simp only [List.head?_cons, Option.some.injEq] at hc
      subst hc
      decide
    have htw : (natToChars t.natAbs ++ y :: rest).takeWhile Char.isDigit =
        natToChars t.natAbs :=
      takeWhile_append_cons _ y rest (natToChars_isDigit _) hy
    have hne : (natToChars t.natAbs).isEmpty = false := by
      cases hv : natToChars t.natAbs with
      | nil => exact absurd hv (natToChars_ne_nil _)
      | cons a l => rfl
    have habs : ((t.natAbs : Int)) = -t :=
      Int.ofNat_natAbs_of_nonpos (le_of_lt ht)
    simp only [scanInt, hrepr, List.cons_append, skipWS_tab, hself,
      List.head?_cons, Option.some.injEq, if_pos rfl, if_true,
      List.tail_cons, htw, hne, Bool.false_eq_true, if_false,
      natToChars_val, List.drop_left, habs, neg_neg]
  · have hnn : 0 ≤ t := le_of_not_lt ht
    have hrepr : intToChars t = natToChars t.toNat := by
      simp [intToChars, ht]
    have hself : skipWS (natToChars t.toNat ++ y :: rest) =
        natToChars t.toNat ++ y :: rest := by
      apply skipWS_eq_self_of_head
      intro c hc
      obtain ⟨d, ds, hd⟩ :=
        List.exists_cons_of_ne_nil (natToChars_ne_nil t.toNat)
      rw [hd] at hc
      simp only [List.cons_append, List.head?_cons, Option.some.injEq] at hc
      subst hc
      exact isSpaceChar_eq_false_of_isDigit d
        (natToChars_isDigit t.toNat d
          (by rw [hd]; exact List.mem_cons_self _ _))
    have hhead : ¬((natToChars t.toNat ++ y :: rest).head? = some '-') := by
      obtain ⟨d, ds, hd⟩ :=
        List.exists_cons_of_ne_nil (natToChars_ne_nil t.toNat)
      rw [hd]
      simp only [List.cons_append, List.head?_cons, Option.some.injEq]
      exact ne_dash_of_isDigit d
        (natToChars_isDigit t.toNat d (by rw [hd]; exact List.mem_cons_self _ _))
    have htw : (natToChars t.toNat ++ y :: rest).takeWhile Char.isDigit =
        natToChars t.toNat :=
      takeWhile_append_cons _ y rest (natToChars_isDigit _) hy
    have hne : (natToChars t.toNat).isEmpty = false := by
      cases hv : natToChars t.toNat with
      | nil => exact absurd hv (natToChars_ne_nil _)
      | cons a l => rfl
    simp only [scanInt, hrepr, skipWS_tab, hself, if_neg hhead, htw, hne,
      Bool.false_eq_true, if_false, natToChars_val, List.drop_left,
      Int.toNat_of_nonneg hnn]

/-- A wellformed row survives the print/scan round trip with all six
fields converted. -/
theorem parseLine_formatLine (e : DbEntry) (h : entryWF e) :
    parseLine (formatLine e) = (6, e) := by
  obtain ⟨⟨hn1, hn2, hn3⟩, hnh, ⟨hv1, hv2, hv3⟩, ⟨hd1, hd2, hd3, hd4⟩,
    _, _, _, _, _⟩ := h
  obtain ⟨d, ds, hd⟩ := List.exists_cons_of_ne_nil hn1
  have hdns : isSpaceChar d = false :=
    hn3 d (by rw [hd]; exact List.mem_cons_self _ _)
  have hs1 : skipWS (formatLine e) = formatLine e := by
    apply skipWS_eq_self_of_head
    intro c hc
    rw [show (formatLine e).head? = some d from by simp [formatLine, hd]]
      at hc
    injection hc with hdc
    rw [← hdc]
    exact hdns
  have hscan1 : scanStr 255 (formatLine e) =
      some (e.name.data, '\t' :: (e.version.data ++ '\t' ::
        (e.description.data ++ '\t' :: (intToChars e.install_time ++
          '\t' :: (natToChars e.installed_size ++ '\t' ::
            (intToChars e.state ++ ['\n'])))))) :=
    scanStr_core 255 e.name.data _ (formatLine e) (by rw [hs1]; rfl)
      hn1 hn2 hn3
  obtain ⟨vd, vds, hv⟩ := List.exists_cons_of_ne_nil hv1
  have hsv : skipWS (e.version.data ++ '\t' ::
      (e.description.data ++ '\t' :: (intToChars e.install_time ++
        '\t' :: (natToChars e.installed_size ++ '\t' ::
          (intToChars e.state ++ ['\n']))))) =
      e.version.data ++ '\t' :: (e.description.data ++ '\t' ::
        (intToChars e.install_time ++ '\t' ::
          (natToChars e.installed_size ++ '\t' ::
            (intToChars e.state ++ ['\n'])))) := by
    apply skipWS_eq_self_of_head
    intro c hc
    rw [hv] at hc
    simp only [List.cons_append, List.head?_cons, Option.some.injEq] at hc
    subst hc
    exact hv3 vd (by rw [hv]; exact List.mem_cons_self _ _)
  have hscan2 : scanStr 63 ('\t' :: (e.version.data ++ '\t' ::
      (e.description.data ++ '\t' :: (intToChars e.install_time ++
        '\t' :: (natToChars e.installed_size ++ '\t' ::
          (intToChars e.state ++ ['\n'])))))) =
      some (e.version.data, '\t' :: (e.description.data ++ '\t' ::
        (intToChars e.install_time ++ '\t' ::
          (natToChars e.installed_size ++ '\t' ::
            (intToChars e.state ++ ['\n']))))) :=
    scanStr_core 63 e.version.data _ _ (by rw [skipWS_tab, hsv]) hv1 hv2 hv3
  obtain ⟨dd, dds, hdd⟩ := List.exists_cons_of_ne_nil hd1
  have hsd : skipWS ('\t' :: (e.description.data ++ '\t' ::
      (intToChars e.install_time ++ '\t' ::
        (natToChars e.installed_size ++ '\t' ::
          (intToChars e.state ++ ['\n']))))) =
      e.description.data ++ '\t' :: (intToChars e.install_time ++ '\t' ::
        (natToChars e.installed_size ++ '\t' ::
          (intToChars e.state ++ ['\n']))) := by
    rw [skipWS_tab]
    apply skipWS_eq_self_of_head
    intro c hc
    rw [hdd] at hc
    simp only [List.cons_append, List.head?_cons, Option.some.injEq] at hc
    subst hc
    exact hd4 dd (by rw [hdd]; rfl)
  have hscan3 : scanSetNoTab 511 (e.description.data ++ '\t' ::
      (intToChars e.install_time ++ '\t' ::
        (natToChars e.installed_size ++ '\t' ::
          (intToChars e.state ++ ['\n'])))) =
      some (e.description.data, '\t' :: (intToChars e.install_time ++
        '\t' :: (natToChars e.installed_size ++ '\t' ::
          (intToChars e.state ++ ['\n'])))) :=
    scanSetNoTab_spec 511 e.description.data _ hd1 hd2
      (fun c hc => (hd3 c hc).1)
  have hscan4 : scanInt ('\t' :: (intToChars e.install_time ++ '\t' ::
      (natToChars e.installed_size ++ '\t' ::
        (intToChars e.state ++ ['\n'])))) =
      some (e.install_time, '\t' :: (natToChars e.installed_size ++
        '\t' :: (intToChars e.state ++ ['\n']))) :=
    scanInt_after_tab e.install_time '\t' _ (by decide)
  have hscan5 : scanNat ('\t' :: (natToChars e.installed_size ++ '\t' ::
      (intToChars e.state ++ ['\n']))) =
      some (e.installed_size, '\t' :: (intToChars e.state ++ ['\n'])) :=
    scanNat_after_tab e.installed_size '\t' _ (by decide)
  have hscan6 : scanInt ('\t' :: (intToChars e.state ++ '\n' :: [])) =
      some (e.state, '\n' :: []) :=
    scanInt_after_tab e.state '\n' [] (by decide)
  simp only [parseLine, hscan1, hscan2, hsd, hscan3, hscan4, hscan5,
    hscan6, stringMk_data]

/-- One `loadStep` on a saved data line prepends exactly the original
row. -/
theorem loadStep_formatLine (acc : Db) (e : DbEntry) (h : entryWF e) :
    loadStep acc (formatLine e) = e :: acc := by
  have hcopy := h
  obtain ⟨⟨hn1, _, hn3⟩, hnh, _⟩ := h
  obtain ⟨d, ds, hd⟩ := List.exists_cons_of_ne_nil hn1
  have hhead : (formatLine e).head? = some d := by simp [formatLine, hd]
  have hd1 : d ≠ '#' := by
    intro hc
    apply hnh
    rw [hd, hc]
    rfl
  have hd2 : d ≠ '\n' := by
    intro hc
    have := hn3 d (by rw [hd]; exact List.mem_cons_self _ _)
    rw [hc] at this
    exact absurd this (by decide)
  simp [loadStep, hhead, hd1, hd2, parseLine_formatLine e hcopy]

theorem load_save_foldl (db : Db) (acc : Db) (h : ∀ e ∈ db, entryWF e) :
    List.foldl loadStep acc (db.map formatLine) = db.reverse ++ acc := by
  induction db generalizing acc with
  | nil => rfl
  | cons e rest ih =>
    have he := h e (List.mem_cons_self e rest)
    have hrest := fun x hx => h x (List.mem_cons_of_mem e hx)
    rw [List.map_cons, List.foldl_cons, loadStep_formatLine acc e he,
      ih (e :: acc) hrest]
    simp

/-- The concrete two-row database of the round-trip scenario. -/
def dbPair : Db :=
  [⟨"alpha", "1.0", "first", 10, 1, 5⟩,
    ⟨"beta", "2.0", "second pkg", 20, 2, 5⟩]

/-- C6 counterexample: saving then loading the two-row database
`[alpha, beta]` yields `[beta, alpha]` — the loader prepends each parsed
line to the list head (src/package.c lines 621-623), so the order is
reversed and `load(save(db)) ≠ db`. -/
theorem c6_counterexample :
    package_db_load_lines (package_db_save_lines dbPair) = dbPair.reverse
    ∧ package_db_load_lines (package_db_save_lines dbPair) ≠ dbPair := by
  refine ⟨by decide, by decide⟩

/-- C6 amended: for every database whose rows are wellformed for the
tab-separated text format, loading the saved file yields the same rows
with the same field values in *reversed* order; moreover load is
tolerant exactly as claimed: a line with only three parsable fields is
accepted with `calloc`-zero defaults for the rest, and a line with fewer
than three fields is discarded. -/
theorem c6_load_save_reversed (db : Db) (h : ∀ e ∈ db, entryWF e) :
    package_db_load_lines (package_db_save_lines db) = db.reverse
    ∧ parseLine "libfoo\t1.2\tdemo desc\n".data =
        ⟨3, { name := "libfoo", version := "1.2",
              description := "demo desc\n" }⟩
    ∧ (parseLine "libfoo\t1.2\n".data).1 = 2
    ∧ package_db_load_lines ["libfoo\t1.2\n".data] = [] := by
  refine ⟨?_, by decide, by decide, by decide⟩
  have hh1 : loadStep [] "# TinyPkg Installed Packages Database\n".data =
      [] := by decide
  have hh2 : loadStep []
      ("# Format: name\tversion\tdescription\tinstall_time" ++
        "\tinstalled_size\tstate\n").data = [] := by decide
  simp only [package_db_load_lines, package_db_save_lines, dbFileHeader,
    List.cons_append, List.nil_append, List.foldl_cons, hh1, hh2]
  rw [load_save_foldl db [] h]
  simp

/-- Witness for `c6_load_save_reversed` at the concrete two-row
database. -/
theorem c6_load_save_reversed_witness :
    (∀ e ∈ dbPair, entryWF e)
    ∧ (package_db_load_lines (package_db_save_lines dbPair) =
          dbPair.reverse
      ∧ parseLine "libfoo\t1.2\tdemo desc\n".data =
          ⟨3, { name := "libfoo", version := "1.2",
                description := "demo desc\n" }⟩
      ∧ (parseLine "libfoo\t1.2\n".data).1 = 2
      ∧ package_db_load_lines ["libfoo\t1.2\n".data] = []) :=
  ⟨by decide, c6_load_save_reversed dbPair (by decide)⟩

end TinyPkg
